import Mathlib

/-!
Verification of the query-modifier parser and result pipeline of the
SearXNG Alfred workflow (src/scripts/search.js), via a shallow embedding
of the JavaScript code into Lean.

JavaScript strings are sequences of UTF-16 code units; we model them as
`List Nat` (each element a code unit below 2^16).  This keeps the
embedding faithful to JS semantics such as `String.prototype.length`
counting code units (astral characters count as 2) and JSON string
escapes denoting raw code units.
-/

/-- Model of a JavaScript string: a list of UTF-16 code units. -/
abbrev JSStr := List Nat

/-- Encode one Lean character as UTF-16 code units (surrogate pair when astral). -/
def utf16Char (c : Char) : List Nat :=
  let n := c.toNat
  if n < 0x10000 then [n]
  else [0xD800 + (n - 0x10000) / 0x400, 0xDC00 + (n - 0x10000) % 0x400]

/-- Convenience: build a `JSStr` from a Lean string literal (UTF-16 encoding). -/
def str (s : String) : JSStr := (s.data.map utf16Char).flatten

/-- The JavaScript whitespace class: the set matched by the regex class
backslash-s and stripped by `String.prototype.trim` (WhiteSpace and
LineTerminator code points of the ECMAScript specification). -/
def isJsSpace (c : Nat) : Bool :=
  c == 0x9 || c == 0xA || c == 0xB || c == 0xC || c == 0xD || c == 0x20 ||
  c == 0xA0 || c == 0x1680 || (0x2000 ≤ c && c ≤ 0x200A) || c == 0x2028 ||
  c == 0x2029 || c == 0x202F || c == 0x205F || c == 0x3000 || c == 0xFEFF

/-- Embedding of `String.prototype.trim`: strip leading and trailing
JS whitespace. -/
def jsTrim (s : JSStr) : JSStr :=
  ((s.dropWhile isJsSpace).reverse.dropWhile isJsSpace).reverse

/-- ASCII lower-casing of one code unit, the canonicalisation used by a
case-insensitive (non-unicode) JS regex over the ASCII bang patterns. -/
def toLowerCU (c : Nat) : Nat :=
  if 65 ≤ c && c ≤ 90 then c + 32 else c

/-- Case-insensitive (ASCII) match of the pattern `p` against a front of
`l`; on success returns the remainder of `l` after the pattern. -/
def stripCI : JSStr → JSStr → Option JSStr
  | [], l => some l
  | _ :: _, [] => none
  | p :: ps, c :: cs => if toLowerCU p == toLowerCU c then stripCI ps cs else none

/-- Embedding of one attempt of the regex `(^|\s)BANG(\s|$)` (flags `gi`)
at the current scan position.  `atStart` records whether the position is
the absolute string start (where `^` can match).  Returns the two capture
groups (`before`, `after`) and the rest of the string after the match,
trying the alternatives in the backtracking order of the JS engine:
`^` before a whitespace `before`, and a whitespace `after` before `$`. -/
def matchBangAt (bang : JSStr) (atStart : Bool) (l : JSStr) :
    Option (JSStr × JSStr × JSStr) :=
  let withBefore : JSStr → JSStr → Option (JSStr × JSStr × JSStr) := fun before l' =>
    match stripCI bang l' with
    | none => none
    | some r =>
      match r with
      | [] => some (before, [], [])
      | c :: rs => if isJsSpace c then some (before, [c], rs) else none
  (if atStart then withBefore [] l else none) <|>
  (match l with
   | c :: ls => if isJsSpace c then withBefore [c] ls else none
   | [] => none)

/-- Replacement value used by `replaceBang` in search.js: an empty string
when the bang was at the string start, the leading whitespace when it was
at the end, and a single space when it sat between words. -/
def bangReplacement (before after : JSStr) : JSStr :=
  if before.isEmpty then [] else if after.isEmpty then before else [32]

/-- One global-replace pass of `str.replace(regex, fn)` for the bang
regex: scan left to right, replacing each (non-overlapping) match and
continuing after it.  `fuel` bounds the recursion (one unit per consumed
position suffices). -/
def replaceBangGo (bang : JSStr) : Nat → Bool → JSStr → JSStr
  | 0, _, l => l
  | fuel + 1, atStart, l =>
    match matchBangAt bang atStart l with
    | some (before, after, rest) =>
      bangReplacement before after ++ replaceBangGo bang fuel false rest
    | none =>
      match l with
      | [] => []
      | c :: ls => c :: replaceBangGo bang fuel false ls

/-- Embedding of the `replaceBang` helper of search.js (one `replace`
call with the global, case-insensitive bang regex). -/
def replaceBang (bang l : JSStr) : JSStr :=
  replaceBangGo bang (l.length + 1) true l

/-- Does the global bang regex find at least one match in `l`?  Mirrors
the scan of `replaceBangGo` exactly. -/
def hasBangGo (bang : JSStr) : Nat → Bool → JSStr → Bool
  | 0, _, _ => false
  | fuel + 1, atStart, l =>
    (matchBangAt bang atStart l).isSome ||
    match l with
    | [] => false
    | _ :: ls => hasBangGo bang fuel false ls

/-- True when the recognised bang `bang` occurs as a whole token in `l`
(the condition under which search.js would remove it). -/
def hasBang (bang l : JSStr) : Bool :=
  hasBangGo bang (l.length + 1) true l

/-- The fixpoint loop of `parseBangs` for one dictionary entry: keep
replacing until the string no longer changes; the boolean reports whether
at least one change happened (in which case search.js assigns the value
of this entry).  `fuel` bounds the iterations; each change strictly
shortens the string, so `length + 1` suffices. -/
def bangFixpoint (bang : JSStr) : Nat → JSStr → JSStr × Bool
  | 0, l => (l, false)
  | fuel + 1, l =>
    let l' := replaceBang bang l
    if l' == l then (l, false)
    else ((bangFixpoint bang fuel l').1, true)

/-- Iterate the removal loop over a bang dictionary (in its declared
iteration order), threading the accumulated value assignment: the value
of the last entry that caused a change wins. -/
def applyBangList : List (JSStr × JSStr) → Option JSStr → JSStr → JSStr × Option JSStr
  | [], acc, q => (q, acc)
  | (b, v) :: rest, acc, q =>
    let step := bangFixpoint b (q.length + 1) q
    applyBangList rest (if step.2 then some v else acc) step.1

/-- The category bang dictionary of search.js, in its declared iteration
order (`Object.entries` preserves insertion order). -/
def categoryBangs : List (JSStr × JSStr) :=
  [(str "!images", str "images"), (str "!i", str "images"),
   (str "!news", str "news"), (str "!n", str "news"),
   (str "!videos", str "videos"), (str "!v", str "videos"),
   (str "!maps", str "maps")]

/-- The time-range bang dictionary of search.js. -/
def timeRangeBangs : List (JSStr × JSStr) :=
  [(str "!d", str "day"), (str "!m", str "month"), (str "!y", str "year")]

/-- All recognised bang tokens. -/
def allBangKeys : List JSStr :=
  categoryBangs.map Prod.fst ++ timeRangeBangs.map Prod.fst

/-- Embedding of the final whitespace normalisation of `parseBangs`:
`replace(/\s{3,}/g, "  ")` — every maximal run of three or more JS
whitespace code units becomes exactly two spaces; shorter runs are kept. -/
def collapse3Go : Nat → JSStr → JSStr
  | 0, l => l
  | _ + 1, [] => []
  | fuel + 1, c :: rest =>
    if isJsSpace c then
      let run := (c :: rest).takeWhile isJsSpace
      let rest' := (c :: rest).dropWhile isJsSpace
      (if 3 ≤ run.length then [32, 32] else run) ++ collapse3Go fuel rest'
    else c :: collapse3Go fuel rest

/-- Collapse runs of three or more whitespace code units to two spaces. -/
def collapse3 (l : JSStr) : JSStr := collapse3Go (l.length + 1) l

/-- The result record of `parseBangs`: cleaned query plus the optional
category and time-range modifiers (absent = `none`). -/
structure ParsedQuery where
  query : JSStr
  category : Option JSStr
  timeRange : Option JSStr
deriving Repr, DecidableEq

/-- Embedding of `parseBangs` from search.js: remove category bangs, then
time-range bangs (each by the fixpoint loop, in dictionary order), then
collapse whitespace runs of three or more to two spaces and trim. -/
def parseBangs (query : JSStr) : ParsedQuery :=
  let cat := applyBangList categoryBangs none query
  let tr := applyBangList timeRangeBangs none cat.1
  { query := jsTrim (collapse3 tr.1), category := cat.2, timeRange := tr.2 }

/-- Embedding of `shouldShowFullResults` from search.js: the trimmed
query must be longer than 3 — measured by the JS `length` property,
i.e. in UTF-16 code units. -/
def shouldShowFullResults (query : JSStr) : Bool :=
  3 < (jsTrim query).length

/-- Number of Unicode characters (code points) denoted by a JS string:
a high surrogate followed by a low surrogate counts once. -/
def codePointCount : JSStr → Nat
  | [] => 0
  | [_] => 1
  | c :: c2 :: rest2 =>
    if (0xD800 ≤ c ∧ c ≤ 0xDBFF) ∧ (0xDC00 ≤ c2 ∧ c2 ≤ 0xDFFF) then
      1 + codePointCount rest2
    else 1 + codePointCount (c2 :: rest2)

/-! ### Lemmas about the bang-removal machinery -/

/-- If the scan finds no match, the global replace leaves the string
unchanged. -/
theorem replaceBangGo_eq_of_hasBangGo_false (bang : JSStr) :
    ∀ (fuel : Nat) (atStart : Bool) (l : JSStr),
      hasBangGo bang fuel atStart l = false →
      replaceBangGo bang fuel atStart l = l := by
  intro fuel
  induction fuel with
  | zero => intro atStart l _; rfl
  | succ n ih =>
    intro atStart l h
    unfold hasBangGo at h
    unfold replaceBangGo
    rcases hm : matchBangAt bang atStart l with _ | ⟨before, after, rest⟩
    · cases l with
      | nil => simp
      | cons c ls =>
        simp only [hm, Option.isSome_none, Bool.false_or] at h
        simp [ih false ls h]
    · simp [hm] at h

/-- If one replace pass changes nothing, the fixpoint loop stops at once
and reports no change. -/
theorem bangFixpoint_of_fixed (bang : JSStr) (fuel : Nat) (l : JSStr)
    (h : replaceBang bang l = l) :
    bangFixpoint bang (fuel + 1) l = (l, false) := by
  unfold bangFixpoint
  simp [h]

/-- A bang dictionary none of whose keys occurs in `q` leaves both the
query and the accumulated value unchanged. -/
theorem applyBangList_of_no_bang :
    ∀ (bangs : List (JSStr × JSStr)) (acc : Option JSStr) (q : JSStr),
      (∀ b ∈ bangs.map Prod.fst, hasBang b q = false) →
      applyBangList bangs acc q = (q, acc) := by
  intro bangs
  induction bangs with
  | nil => intro acc q _; rfl
  | cons hd tl ih =>
    intro acc q h
    have hhd : hasBang hd.1 q = false := by
      apply h; simp
    have hrep : replaceBang hd.1 q = q :=
      replaceBangGo_eq_of_hasBangGo_false hd.1 (q.length + 1) true q hhd
    unfold applyBangList
    rw [bangFixpoint_of_fixed hd.1 q.length q hrep]
    exact ih acc q (fun b hb => h b (by simp [hb]))

/-- Elements of the trimmed string are elements of the original. -/
theorem jsTrim_subset (q : JSStr) : ∀ c ∈ jsTrim q, c ∈ q := by
  intro c hc
  unfold jsTrim at hc
  rw [List.mem_reverse] at hc
  have h1 : c ∈ (q.dropWhile isJsSpace).reverse :=
    (List.dropWhile_suffix isJsSpace).sublist.subset hc
  rw [List.mem_reverse] at h1
  exact (List.dropWhile_suffix isJsSpace).sublist.subset h1

/-- On strings free of surrogate code units, the code-point count agrees
with the UTF-16 length. -/
theorem codePointCount_eq_length :
    ∀ (l : JSStr), (∀ c ∈ l, c < 0xD800 ∨ 0xDFFF < c) →
      codePointCount l = l.length := by
  intro l
  induction l with
  | nil => intro _; rfl
  | cons c rest ih =>
    intro h
    cases rest with
    | nil => rfl
    | cons c2 rest2 =>
      have hc := h c (by simp)
      have hcond : ¬((0xD800 ≤ c ∧ c ≤ 0xDBFF) ∧ (0xDC00 ≤ c2 ∧ c2 ≤ 0xDFFF)) := by
        rcases hc with h1 | h1 <;> omega
      have ih2 := ih (fun x hx => h x (by simp [hx]))
      simp only [codePointCount, if_neg hcond] at *
      simp [ih2]
      omega

/-- C2: on a string containing no recognised bang token, `parseBangs`
returns the input with whitespace runs of three or more collapsed to two
spaces and the ends trimmed (which equals trimming first and collapsing
internal runs), and leaves both modifier fields absent.  Unknown bangs
such as `!foo` contain no recognised token and are therefore covered. -/
theorem parseBangs_no_recognized_bang (s : JSStr)
    (h : ∀ b ∈ allBangKeys, hasBang b s = false) :
    parseBangs s = ⟨jsTrim (collapse3 s), none, none⟩ := by
  have hcat : applyBangList categoryBangs none s = (s, none) :=
    applyBangList_of_no_bang categoryBangs none s
      (fun b hb => h b (by simp only [allBangKeys, List.mem_append]; exact Or.inl hb))
  have htr : applyBangList timeRangeBangs none s = (s, none) :=
    applyBangList_of_no_bang timeRangeBangs none s
      (fun b hb => h b (by simp only [allBangKeys, List.mem_append]; exact Or.inr hb))
  simp only [parseBangs, hcat, htr]

/-- Witness for C2 at the concrete input `"hello   world !foo"` (three
internal spaces, an unrecognised bang): the query collapses to two spaces
and no modifier is produced. -/
theorem parseBangs_no_recognized_bang_witness :
    parseBangs (str "hello   world !foo") = ⟨str "hello  world !foo", none, none⟩ :=
  (parseBangs_no_recognized_bang (str "hello   world !foo") (by decide)).trans (by decide)

/-- C3: with two recognised bangs of the same family, the dictionary
entry iterated last wins: `parseBangs("!i !n search")` yields the
category `news` (not `images`) and the cleaned query `search`, matching
the declared iteration order `!images, !i, !news, !n, !videos, !v, !maps`. -/
theorem parseBangs_last_dictionary_entry_wins :
    parseBangs (str "!i !n search") = ⟨str "search", some (str "news"), none⟩ := by
  decide

/-- Counterexample to C4 as stated: the JS `length` property counts
UTF-16 code units, not Unicode characters.  The string of two astral
characters (U+1F600 twice, i.e. four code units) has trimmed Unicode
length 2 — for which the claim demands `false` — yet
`shouldShowFullResults` returns `true`. -/
theorem shouldShowFullResults_astral_counterexample :
    shouldShowFullResults [0xD83D, 0xDE00, 0xD83D, 0xDE00] = true ∧
    codePointCount (jsTrim [0xD83D, 0xDE00, 0xD83D, 0xDE00]) = 2 := by
  decide

/-- C4 amended: for strings free of surrogate code units (where UTF-16
code units and Unicode characters coincide — in particular for any text
of basic-plane characters such as `"café"`), `shouldShowFullResults`
returns true exactly when the trimmed Unicode length is at least 4. -/
theorem shouldShowFullResults_code_units (q : JSStr)
    (h : ∀ c ∈ q, c < 0xD800 ∨ 0xDFFF < c) :
    shouldShowFullResults q = true ↔ 4 ≤ codePointCount (jsTrim q) := by
  rw [codePointCount_eq_length (jsTrim q) (fun c hc => h c (jsTrim_subset q c hc))]
  simp only [shouldShowFullResults, decide_eq_true_eq]
  omega

/-- Witness for the amended C4: `"café"` (four basic-plane characters)
passes the threshold. -/
theorem shouldShowFullResults_code_units_witness :
    shouldShowFullResults (str "café") = true :=
  (shouldShowFullResults_code_units (str "café") (by decide)).mpr (by decide)

/-! ### JSON values and `JSON.parse`

The backend responses are dynamic JSON values.  `Json` models a parsed
JavaScript value; numbers are kept structurally (integer part, fraction
digits, exponent) since no claim depends on float arithmetic. -/

/-- A parsed JSON value as JavaScript sees it. -/
inductive Json where
  | null
  | bool (b : Bool)
  | num (intPart : Int) (frac : List Nat) (exp : Int)
  | str (s : JSStr)
  | arr (elems : List Json)
  | obj (fields : List (JSStr × Json))
deriving Repr

/-- The whitespace accepted by `JSON.parse` (space, tab, LF, CR). -/
def jsonWs (c : Nat) : Bool := c == 0x20 || c == 0x9 || c == 0xA || c == 0xD

/-- Value of a hexadecimal digit code unit. -/
def hexVal (c : Nat) : Option Nat :=
  if 48 ≤ c ∧ c ≤ 57 then some (c - 48)
  else if 65 ≤ c ∧ c ≤ 70 then some (c - 55)
  else if 97 ≤ c ∧ c ≤ 102 then some (c - 87)
  else none

/-- Is the code unit an ASCII digit? -/
def isDigitCU (c : Nat) : Bool := 48 ≤ c && c ≤ 57

/-- Decimal value of a list of digit code units. -/
def digitsToNat (ds : List Nat) : Nat := ds.foldl (fun a d => a * 10 + (d - 48)) 0

/-- Parse the body of a JSON string (after the opening quote), handling
the JSON escapes; `\uXXXX` denotes the code unit directly (as in JS). -/
def parseJsonStringGo : Nat → JSStr → Option (JSStr × JSStr)
  | 0, _ => none
  | _ + 1, [] => none
  | fuel + 1, c :: rest =>
    if c == 34 then some ([], rest)
    else if c == 92 then
      match rest with
      | [] => none
      | e :: rest2 =>
        if e == 34 || e == 92 || e == 47 then
          (parseJsonStringGo fuel rest2).map (fun p => (e :: p.1, p.2))
        else if e == 98 then (parseJsonStringGo fuel rest2).map (fun p => (8 :: p.1, p.2))
        else if e == 102 then (parseJsonStringGo fuel rest2).map (fun p => (12 :: p.1, p.2))
        else if e == 110 then (parseJsonStringGo fuel rest2).map (fun p => (10 :: p.1, p.2))
        else if e == 114 then (parseJsonStringGo fuel rest2).map (fun p => (13 :: p.1, p.2))
        else if e == 116 then (parseJsonStringGo fuel rest2).map (fun p => (9 :: p.1, p.2))
        else if e == 117 then
          match rest2 with
          | h1 :: h2 :: h3 :: h4 :: rest3 =>
            match hexVal h1, hexVal h2, hexVal h3, hexVal h4 with
            | some a, some b, some c3, some d =>
              (parseJsonStringGo fuel rest3).map
                (fun p => ((a * 4096 + b * 256 + c3 * 16 + d) :: p.1, p.2))
            | _, _, _, _ => none
          | _ => none
        else none
    else if c < 0x20 then none
    else (parseJsonStringGo fuel rest).map (fun p => (c :: p.1, p.2))

/-- Parse a JSON number starting at the current position. -/
def parseJsonNumber (l : JSStr) : Option (Json × JSStr) :=
  let p := match l with | 45 :: t => (true, t) | _ => (false, l)
  let neg := p.1
  let l1 := p.2
  let intDigits := l1.takeWhile isDigitCU
  let l2 := l1.dropWhile isDigitCU
  if intDigits.isEmpty then none
  else if 1 < intDigits.length && intDigits.head? == some 48 then none
  else
    let fp : Option (List Nat × JSStr) :=
      match l2 with
      | 46 :: t =>
        let fd := t.takeWhile isDigitCU
        if fd.isEmpty then none else some (fd, t.dropWhile isDigitCU)
      | _ => some ([], l2)
    match fp with
    | none => none
    | some (frac, l3) =>
      let ep : Option (Int × JSStr) :=
        match l3 with
        | e :: t =>
          if e == 101 || e == 69 then
            let q := match t with
              | 43 :: t2 => (false, t2)
              | 45 :: t2 => (true, t2)
              | _ => (false, t)
            let ed := q.2.takeWhile isDigitCU
            if ed.isEmpty then none
            else some ((if q.1 then -(digitsToNat ed : Int) else (digitsToNat ed : Int)),
                       q.2.dropWhile isDigitCU)
          else some (0, l3)
        | [] => some (0, l3)
      match ep with
      | none => none
      | some (ex, l4) =>
        let iv : Int := if neg then -(digitsToNat intDigits : Int) else (digitsToNat intDigits : Int)
        some (.num iv frac ex, l4)

/-- Parse `value (, value)*` followed by the closing bracket, using the
given parser `pv` for each element. -/
def parseElemsWith (pv : JSStr → Option (Json × JSStr)) :
    Nat → JSStr → Option (List Json × JSStr)
  | 0, _ => none
  | fuel + 1, l =>
    match pv l with
    | none => none
    | some (v, r) =>
      match r.dropWhile jsonWs with
      | 44 :: r2 =>  -- comma
        match parseElemsWith pv fuel r2 with
        | none => none
        | some (vs, r3) => some (v :: vs, r3)
      | 93 :: r2 => some ([v], r2)  -- right bracket
      | _ => none

/-- Parse `"key" : value (, "key" : value)*` followed by the closing
brace, using the given parser `pv` for each member value. -/
def parseFieldsWith (pv : JSStr → Option (Json × JSStr)) :
    Nat → JSStr → Option (List (JSStr × Json) × JSStr)
  | 0, _ => none
  | fuel + 1, l =>
    match l.dropWhile jsonWs with
    | 34 :: kr =>
      match parseJsonStringGo (kr.length + 1) kr with
      | none => none
      | some (key, r) =>
        match r.dropWhile jsonWs with
        | 58 :: r2 =>  -- colon
          match pv r2 with
          | none => none
          | some (v, r3) =>
            match r3.dropWhile jsonWs with
            | 44 :: r5 =>  -- comma
              match parseFieldsWith pv fuel r5 with
              | none => none
              | some (fs, r6) => some ((key, v) :: fs, r6)
            | 125 :: r5 => some ([(key, v)], r5)  -- right brace
            | _ => none
        | _ => none
    | _ => none

/-- Parse one JSON value (after skipping leading whitespace).  Nested
values are parsed with one unit less fuel; the fuel only bounds the
nesting depth, so an amount at least the input length always suffices. -/
def parseJsonValue : Nat → JSStr → Option (Json × JSStr)
  | 0, _ => none
  | fuel + 1, l =>
    let l1 := l.dropWhile jsonWs
    match l1 with
    | [] => none
    | c :: rest =>
      if c == 34 then
        (parseJsonStringGo (rest.length + 1) rest).map (fun p => (.str p.1, p.2))
      else if c == 123 then  -- left brace: object
        match rest.dropWhile jsonWs with
        | 125 :: r => some (.obj [], r)  -- right brace: empty object
        | r1 =>
          match parseFieldsWith (fun l2 => parseJsonValue fuel l2) (r1.length + 1) r1 with
          | none => none
          | some (fs, r2) => some (.obj fs, r2)
      else if c == 91 then   -- left bracket: array
        match rest.dropWhile jsonWs with
        | 93 :: r => some (.arr [], r)  -- right bracket: empty array
        | r1 =>
          match parseElemsWith (fun l2 => parseJsonValue fuel l2) (r1.length + 1) r1 with
          | none => none
          | some (vs, r2) => some (.arr vs, r2)
      else if c == 116 then  -- t
        match rest with
        | 114 :: 117 :: 101 :: r => some (.bool true, r)
        | _ => none
      else if c == 102 then  -- f
        match rest with
        | 97 :: 108 :: 115 :: 101 :: r => some (.bool false, r)
        | _ => none
      else if c == 110 then  -- n
        match rest with
        | 117 :: 108 :: 108 :: r => some (.null, r)
        | _ => none
      else if c == 45 || isDigitCU c then parseJsonNumber l1
      else none

/-- Embedding of `JSON.parse` over the `Json` model: parse one value and
require only whitespace to remain.  `none` models a thrown `SyntaxError`.
The fuel is generous: every recursive call follows the consumption of at
least one code unit. -/
def jsonParse (s : JSStr) : Option Json :=
  match parseJsonValue (s.length + 2) s with
  | none => none
  | some (v, rest) => if (rest.dropWhile jsonWs).isEmpty then some v else none

/-! ### Dynamic values and the autocomplete response parser -/

/-- A JavaScript expression value in the pipeline: a JSON value or
`undefined` (`none`). -/
abbrev JsVal := Option Json

/-- JavaScript truthiness of a `JsVal`: `undefined`, `null`, `false`,
zero and the empty string are falsy; arrays and objects are truthy. -/
def truthy : JsVal → Bool
  | none => false
  | some .null => false
  | some (.bool b) => b
  | some (.num i f _) => !(i == 0 && f.all (· == 48))
  | some (.str s) => !s.isEmpty
  | some (.arr _) => true
  | some (.obj _) => true

/-- Embedding of `a || b`: the left value when truthy, otherwise the
right value. -/
def jsOr (a b : JsVal) : JsVal := if truthy a then a else b

/-- Property lookup `v.key` on a parsed JSON value: only objects carry
fields, and (as in JS) a duplicated key keeps its last occurrence. -/
def getField (v : Json) (key : JSStr) : JsVal :=
  match v with
  | .obj fields => fields.foldl (fun acc f => if f.1 == key then some f.2 else acc) none
  | _ => none

/-- Embedding of `parseAutocompleteResponse` from search.js.  The raw
response body is a string or (`none`) null/undefined; a falsy body, an
unparseable body, a non-array value, an array shorter than two, or a
second element that is not an array all yield the empty list; otherwise
the second element (an array) is returned. -/
def parseAutocompleteResponse (responseData : Option JSStr) : List Json :=
  match responseData with
  | none => []
  | some s =>
    if s.isEmpty then []
    else
      match jsonParse s with
      | none => []
      | some parsed =>
        match parsed with
        | .arr elems =>
          if elems.length < 2 then []
          else
            match elems with
            | _ :: second :: _ =>
              match second with
              | .arr suggestions => suggestions
              | _ => []
            | _ => []
        | _ => []

/-- Parsing the empty string fails. -/
theorem jsonParse_nil : jsonParse ([] : JSStr) = none := rfl

/-- Counterexample to C5 as stated: a three-element array deviates from
the well-formed two-element shape (its length is wrong), yet the code
only rejects arrays shorter than two, so the parsed second element is
returned instead of the empty array. -/
theorem parseAutocompleteResponse_three_element_counterexample :
    jsonParse (str "[\"x\",[\"a\"],\"y\"]") =
      some (.arr [.str (str "x"), .arr [.str (str "a")], .str (str "y")]) ∧
    parseAutocompleteResponse (some (str "[\"x\",[\"a\"],\"y\"]")) = [.str (str "a")] ∧
    ([Json.str (str "a")] : List Json) ≠ [] := by
  refine ⟨rfl, rfl, ?_⟩
  simp

/-- C5 amended: `parseAutocompleteResponse` returns the second element
for any parsed array of length at least two whose second element is an
array (so trailing extra elements are tolerated and `wrong length` means
`shorter than two`); every other input — null, the empty string, invalid
JSON, a non-array value, an array shorter than two, a second element
that is not an array — yields the empty list, and the function is total
(never throws). -/
theorem parseAutocompleteResponse_spec :
    parseAutocompleteResponse (some (str "[\"clim\", [\"a\",\"b\"]]")) =
      [.str (str "a"), .str (str "b")] ∧
    parseAutocompleteResponse none = [] ∧
    parseAutocompleteResponse (some []) = [] ∧
    (∀ s : JSStr, jsonParse s = none → parseAutocompleteResponse (some s) = []) ∧
    (∀ (s : JSStr) (v : Json), jsonParse s = some v → (∀ xs, v ≠ .arr xs) →
      parseAutocompleteResponse (some s) = []) ∧
    (∀ (s : JSStr) (xs : List Json), jsonParse s = some (.arr xs) → xs.length < 2 →
      parseAutocompleteResponse (some s) = []) ∧
    (∀ (s : JSStr) (a b : Json) (rest : List Json),
      jsonParse s = some (.arr (a :: b :: rest)) → (∀ ys, b ≠ .arr ys) →
      parseAutocompleteResponse (some s) = []) ∧
    (∀ (s : JSStr) (a : Json) (ys rest : List Json),
      jsonParse s = some (.arr (a :: .arr ys :: rest)) →
      parseAutocompleteResponse (some s) = ys) := by
  refine ⟨rfl, rfl, rfl, ?_, ?_, ?_, ?_, ?_⟩
  · intro s h
    by_cases hs : s.isEmpty <;> simp [parseAutocompleteResponse, hs, h]
  · intro s v h hv
    have hs : s.isEmpty = false := by
      cases s with
      | nil => rw [jsonParse_nil] at h; cases h
      | cons c cs => rfl
    cases v with
    | arr xs => exact absurd rfl (hv xs)
    | null => simp [parseAutocompleteResponse, hs, h]
    | bool b => simp [parseAutocompleteResponse, hs, h]
    | num i f e => simp [parseAutocompleteResponse, hs, h]
    | str t => simp [parseAutocompleteResponse, hs, h]
    | obj fs => simp [parseAutocompleteResponse, hs, h]
  · intro s xs h hlen
    have hs : s.isEmpty = false := by
      cases s with
      | nil => rw [jsonParse_nil] at h; cases h
      | cons c cs => rfl
    simp [parseAutocompleteResponse, hs, h, hlen]
  · intro s a b rest h hb
    have hs : s.isEmpty = false := by
      cases s with
      | nil => rw [jsonParse_nil] at h; cases h
      | cons c cs => rfl
    have hlen : ¬((a :: b :: rest).length < 2) := by simp
    cases b with
    | arr ys => exact absurd rfl (hb ys)
    | null => simp [parseAutocompleteResponse, hs, h, hlen]
    | bool b2 => simp [parseAutocompleteResponse, hs, h, hlen]
    | num i f e => simp [parseAutocompleteResponse, hs, h, hlen]
    | str t => simp [parseAutocompleteResponse, hs, h, hlen]
    | obj fs => simp [parseAutocompleteResponse, hs, h, hlen]
  · intro s a ys rest h
    have hs : s.isEmpty = false := by
      cases s with
      | nil => rw [jsonParse_nil] at h; cases h
      | cons c cs => rfl
    have hlen : ¬((a :: Json.arr ys :: rest).length < 2) := by simp
    simp [parseAutocompleteResponse, hs, h, hlen]

/-- Witness for the amended C5: the concrete invalid body `"["` yields
the empty list through the invalid-JSON clause of the theorem. -/
theorem parseAutocompleteResponse_spec_witness :
    parseAutocompleteResponse (some (str "[")) = [] :=
  parseAutocompleteResponse_spec.2.2.2.1 (str "[") rfl

/-! ### Display items and their constructors

The decorative characters below are written as explicit code-unit lists
copied from src/scripts/search.js, which stores them in a mangled
single-byte decoding of the original emoji bytes; the embedding
reproduces the file content exactly. -/

/-- The three code units appended by `truncate` for the ellipsis. -/
def ellipsisStr : JSStr := [0x201A, 0xC4, 0xB6]

/-- The separator the subtitle parts are joined with. -/
def midDotSep : JSStr := [0x20, 0xAC, 0x2211, 0x20]

/-- Subtitle of the alt modifier of a result item. -/
def altSubtitleStr : JSStr := [0x201A, 0xE5, 0x2022] ++ str ": View in SearXNG"

/-- Title of the missing-configuration error item. -/
def urlNotConfiguredTitle : JSStr :=
  [0x201A, 0xF6, 0x2020, 0xD4, 0x220F, 0xE8] ++ str " SearXNG URL not configured"

/-- Title of the network error item. -/
def cannotReachTitle : JSStr :=
  [0x201A, 0xF6, 0x2020, 0xD4, 0x220F, 0xE8] ++ str " Cannot reach SearXNG"

/-- Title of the empty-response error item. -/
def emptyResponseTitle : JSStr :=
  [0x201A, 0xE8, 0xB1, 0xD4, 0x220F, 0xE8] ++ str " Empty response"

/-- Title of the html-not-json error item. -/
def jsonApiTitle : JSStr := [0xF8FF, 0xFC, 0xEE, 0xED] ++ str " JSON API not enabled"

/-- Title of the invalid-response error item. -/
def invalidResponseTitle : JSStr := [0x201A, 0xF9, 0xE5] ++ str " Invalid response"

/-- Title of the api-error item. -/
def apiErrorTitle : JSStr := [0x201A, 0xF9, 0xE5] ++ str " API Error"

/-- Title of the no-results error item. -/
def noResultsTitle : JSStr := [0xF8FF, 0xFC, 0xEE, 0xE7] ++ str " No results found"

/-- The dash run of a separator item title. -/
def sepDashes : JSStr := [0x201A, 0xEE, 0xC4, 0x201A, 0xEE, 0xC4]

/-- The `text` field of an Alfred item. -/
structure TextField where
  copy : JsVal
  largetype : JsVal
deriving Repr

/-- One modifier-key entry of an Alfred item. -/
structure ModEntry where
  valid : Option Bool
  subtitle : JsVal
  arg : JsVal
deriving Repr

/-- The modifier-key map of an Alfred item (absent entries are `none`). -/
structure Mods where
  cmd : Option ModEntry
  alt : Option ModEntry
  ctrl : Option ModEntry
  shift : Option ModEntry
deriving Repr

/-- An Alfred display item.  Fields that JS may leave out entirely are
`Option`; fields holding dynamic values are `JsVal`.  The `variables`
object is flattened into its two possible entries. -/
structure Item where
  title : JsVal
  subtitle : JsVal
  arg : JsVal
  valid : Option Bool
  autocomplete : JsVal
  icon : Option JSStr
  quicklookurl : JsVal
  matchStr : Option JSStr
  text : Option TextField
  variablesCategory : Option JSStr
  variablesTimeRange : Option JSStr
  mods : Option Mods
deriving Repr

/-- An item with every field absent, the base for the constructors. -/
def emptyItem : Item :=
  ⟨none, none, none, none, none, none, none, none, none, none, none, none⟩

/-- Truthiness of an optional string variable (`if (category)`): absent
or empty is falsy. -/
def truthyOptStr (o : Option JSStr) : Bool :=
  match o with
  | none => false
  | some s => !s.isEmpty

/-- ASCII upper-casing of one code unit (the category names are ASCII). -/
def toUpperCU (c : Nat) : Nat :=
  if 97 ≤ c && c ≤ 122 then c - 32 else c

/-- Embedding of `category.charAt(0).toUpperCase() + category.slice(1)`. -/
def capitalizeFirst : JSStr → JSStr
  | [] => []
  | c :: rest => toUpperCU c :: rest

/-- The capitalised time-range labels of `formatFilterSubtitle`
(`timeLabels[timeRange] || timeRange`). -/
def timeLabel (t : JSStr) : JSStr :=
  if t == str "day" then str "Past day"
  else if t == str "month" then str "Past month"
  else if t == str "year" then str "Past year"
  else t

/-- Embedding of `formatFilterSubtitle` from search.js. -/
def formatFilterSubtitle (category timeRange : Option JSStr) : JSStr :=
  let parts :=
    (if truthyOptStr category then [capitalizeFirst (category.getD [])] else []) ++
    (if truthyOptStr timeRange then [timeLabel (timeRange.getD [])] else [])
  List.intercalate midDotSep parts

/-- The punctuation class replaced by a space in `alfredMatcher`. -/
def isPunctCU (c : Nat) : Bool :=
  c == 45 || c == 40 || c == 41 || c == 95 || c == 46 || c == 58 || c == 35 ||
  c == 47 || c == 92 || c == 59 || c == 44 || c == 91 || c == 93

/-- Replace the punctuation class with spaces. -/
def cleanPunct (s : JSStr) : JSStr := s.map (fun c => if isPunctCU c then 32 else c)

/-- Insert a space before every ASCII capital (`replace(/([A-Z])/g, " $1")`). -/
def camelSplit (s : JSStr) : JSStr :=
  (s.map (fun c => if 65 ≤ c && c ≤ 90 then [32, c] else [c])).flatten

/-- Embedding of `alfredMatcher` on a string argument. -/
def alfredMatcherStr (s : JSStr) : JSStr :=
  cleanPunct s ++ [32] ++ camelSplit s ++ [32] ++ s

/-- Embedding of `alfredMatcher` on a dynamic argument: a falsy argument
yields the empty string; a truthy non-string would engage dynamic
coercions (a TypeError for most shapes) that no claim exercises, modelled
as `none`. -/
def alfredMatcherVal (v : JsVal) : Option JSStr :=
  if truthy v = false then some []
  else
    match v with
    | some (.str s) => some (alfredMatcherStr s)
    | _ => none

/-- Uppercase hexadecimal digit of a value below 16. -/
def hexDigitUC (n : Nat) : Nat := if n < 10 then 48 + n else 55 + n

/-- Percent-encoding of one byte. -/
def pctByte (b : Nat) : JSStr := [37, hexDigitUC (b / 16), hexDigitUC (b % 16)]

/-- UTF-8 bytes of a code point. -/
def utf8Bytes (cp : Nat) : List Nat :=
  if cp < 0x80 then [cp]
  else if cp < 0x800 then [0xC0 + cp / 0x40, 0x80 + cp % 0x40]
  else if cp < 0x10000 then
    [0xE0 + cp / 0x1000, 0x80 + (cp / 0x40) % 0x40, 0x80 + cp % 0x40]
  else
    [0xF0 + cp / 0x40000, 0x80 + (cp / 0x1000) % 0x40, 0x80 + (cp / 0x40) % 0x40,
     0x80 + cp % 0x40]

/-- The characters `encodeURIComponent` leaves unencoded. -/
def isUriUnreserved (c : Nat) : Bool :=
  (65 ≤ c && c ≤ 90) || (97 ≤ c && c ≤ 122) || (48 ≤ c && c ≤ 57) ||
  c == 45 || c == 46 || c == 33 || c == 126 || c == 42 || c == 39 ||
  c == 40 || c == 41 || c == 95

/-- Embedding of `encodeURIComponent`: unreserved characters pass
through; surrogate pairs are UTF-8 percent-encoded as one code point.
(On a lone surrogate JS throws a URIError; no claim exercises one, and
here it is encoded as the generalised UTF-8 of the surrogate value.) -/
def encodeURIComponent : JSStr → JSStr
  | [] => []
  | [c] =>
    if isUriUnreserved c then [c] else ((utf8Bytes c).map pctByte).flatten
  | c :: c2 :: rest2 =>
    if isUriUnreserved c then c :: encodeURIComponent (c2 :: rest2)
    else if (0xD800 ≤ c && c ≤ 0xDBFF) && (0xDC00 ≤ c2 && c2 ≤ 0xDFFF) then
      ((utf8Bytes (0x10000 + (c - 0xD800) * 0x400 + (c2 - 0xDC00))).map pctByte).flatten ++
        encodeURIComponent rest2
    else ((utf8Bytes c).map pctByte).flatten ++ encodeURIComponent (c2 :: rest2)

/-- The browser-facing search URL (`/search?q=...` with optional
category and time-range parameters), as built by `fallbackItem` and
`resultToAlfredItem`. -/
def browserSearchUrl (searxngUrl query : JSStr) (category timeRange : Option JSStr) : JSStr :=
  searxngUrl ++ str "/search?q=" ++ encodeURIComponent query ++
  (match category with
   | some c => str "&categories=" ++ encodeURIComponent c
   | none => []) ++
  (match timeRange with
   | some t => str "&time_range=" ++ encodeURIComponent t
   | none => [])

/-- The JSON-API search URL built by `search` (`&format=json` before the
optional filter parameters). -/
def searchFetchUrl (searxngUrl query : JSStr) (category timeRange : Option JSStr) : JSStr :=
  searxngUrl ++ str "/search?q=" ++ encodeURIComponent query ++ str "&format=json" ++
  (match category with
   | some c => str "&categories=" ++ encodeURIComponent c
   | none => []) ++
  (match timeRange with
   | some t => str "&time_range=" ++ encodeURIComponent t
   | none => [])

/-- A modifier entry disabled by `errorItem`. -/
def disabledMod : ModEntry := ⟨some false, some (.str []), none⟩

/-- Embedding of `errorItem` from search.js: actionable only when an arg
is supplied, with every modifier key disabled.  (The subtitle is dynamic
because the api-error branch passes the parsed `data.error` value.) -/
def errorItem (title : JSStr) (subtitle : JsVal) (arg : Option JSStr) : Item :=
  { emptyItem with
    title := some (.str title)
    subtitle := subtitle
    valid := some arg.isSome
    arg := arg.map .str
    mods := some ⟨some disabledMod, some disabledMod, some disabledMod, some disabledMod⟩ }

/-- Embedding of `fallbackItem` from search.js: open the backend web UI
with the query and the active filters encoded. -/
def fallbackItem (query searxngUrl : JSStr) (category timeRange : Option JSStr) : Item :=
  let searchUrl := browserSearchUrl searxngUrl query category timeRange
  let filterInfo := formatFilterSubtitle category timeRange
  let subtitle :=
    if filterInfo.isEmpty then str "Open SearXNG web interface"
    else str "Open SearXNG web interface" ++ midDotSep ++ filterInfo
  { emptyItem with
    title := some (.str (str "Search \"" ++ query ++ str "\" in browser"))
    subtitle := some (.str subtitle)
    arg := some (.str searchUrl)
    icon := some (str "icon.png") }

/-- Embedding of `separatorItem` from search.js. -/
def separatorItem (label : JSStr) : Item :=
  { emptyItem with
    title := some (.str (sepDashes ++ [32] ++ label ++ [32] ++ sepDashes))
    valid := some false
    icon := some (str "icon.png") }

/-- The placeholder item shown for a blank query. -/
def promptItem (subtitle : JSStr) : Item :=
  { emptyItem with
    title := some (.str (str "Search SearXNG..."))
    subtitle := some (.str subtitle)
    valid := some false }

/-- The lowercase time-range labels of `suggestionToAlfredItem`. -/
def suggestionTimeLabel (t : JSStr) : JSStr :=
  if t == str "day" then str "past day"
  else if t == str "month" then str "past month"
  else if t == str "year" then str "past year"
  else t

/-- Embedding of `suggestionToAlfredItem` from search.js; the suggestion
is a parsed JSON value used directly as title, arg and autocomplete. -/
def suggestionToAlfredItem (s : Json) (category timeRange : Option JSStr) : Item :=
  let sub1 := str "Search" ++ (if truthyOptStr category then [32] ++ category.getD [] else [])
  let sub2 := sub1 ++
    (if truthyOptStr timeRange then
       str " (" ++ suggestionTimeLabel (timeRange.getD []) ++ str ")"
     else [])
  let subtitle := sub2 ++ str " for this suggestion"
  { emptyItem with
    title := some s
    subtitle := some (.str subtitle)
    arg := some s
    autocomplete := some s
    valid := some true
    icon := some (str "icon.png")
    variablesCategory := if truthyOptStr category then category else none
    variablesTimeRange := if truthyOptStr timeRange then timeRange else none }

/-! ### The favicon resolver and the result transformer -/

/-- Outcome of `httpGet` as the orchestrator sees it: a success flag and
an optional body (the transport itself is an external collaborator). -/
structure FetchResult where
  success : Bool
  data : Option JSStr
deriving Repr

/-- The external collaborators of one invocation: the HTTP fetch outcome
per URL and timeout, the on-disk favicon cache lookup per domain
(`getCachedFavicon`), and the favicon fetch-and-persist outcome per
domain (`fetchFavicon`). -/
structure Env where
  httpGetResult : JSStr → Nat → FetchResult
  cached : JSStr → Option JSStr
  fetched : JSStr → Option JSStr

/-- The per-search favicon fetch budget of search.js. -/
def MAX_FAVICON_FETCHES_PER_SEARCH : Nat := 10

/-- Result of one `getFaviconPath` call: the icon path, the new value of
the `faviconFetchesThisSearch` counter, and whether a network fetch was
attempted. -/
structure FaviconOutcome where
  path : JSStr
  count : Nat
  didFetch : Bool
deriving Repr, DecidableEq

/-- Embedding of `getFaviconPath` from search.js on a string domain:
disabled without a secret key; cache hit returns without fetching; an
exhausted budget returns the fallback without fetching; otherwise the
counter is incremented and a fetch attempted, falling back to the
generic icon on failure. -/
def getFaviconPathD (env : Env) (domain searxngUrl secretKey : JSStr) (count : Nat) :
    FaviconOutcome :=
  if secretKey.isEmpty then ⟨str "icon.png", count, false⟩
  else
    match env.cached domain with
    | some p => ⟨p, count, false⟩
    | none =>
      if MAX_FAVICON_FETCHES_PER_SEARCH ≤ count then ⟨str "icon.png", count, false⟩
      else
        match env.fetched domain with
        | some p => ⟨p, count + 1, true⟩
        | none => ⟨str "icon.png", count + 1, true⟩

/-- Extraction of the display domain from a URL string, embedding the
regex `^https?://(www\.)?([^/]+)` with its backtracking: if nothing
non-slash follows `www.`, the optional group is dropped and `www.` itself
can become the domain; if the regex fails the raw URL is returned. -/
def extractDomainStr (u : JSStr) : JSStr :=
  let afterScheme : Option JSStr :=
    if (str "https://").isPrefixOf u then some (u.drop 8)
    else if (str "http://").isPrefixOf u then some (u.drop 7)
    else none
  match afterScheme with
  | none => u
  | some rest =>
    let withoutW :=
      if (str "www.").isPrefixOf rest then rest.drop 4 else rest
    let dom := withoutW.takeWhile (· != 47)
    if dom.isEmpty then
      let dom2 := rest.takeWhile (· != 47)
      if dom2.isEmpty then u else dom2
    else dom

/-- Embedding of `extractDomain` on a dynamic URL value: calling `.match`
on a non-string throws inside the try block, which returns the argument
unchanged. -/
def extractDomainVal (url : JsVal) : JsVal :=
  match url with
  | some (.str s) => some (.str (extractDomainStr s))
  | v => v

/-- Embedding of `truncate` on a dynamic argument: a falsy text yields
the empty string; a string is cut at the limit with an ellipsis.  A
truthy non-string engages dynamic coercions (a TypeError for most
shapes; an array at most as long as the limit would pass through) that
no claim exercises, modelled as `none`. -/
def truncateJs (text : JsVal) (maxLength : Nat) : Option JsVal :=
  if truthy text = false then some (some (.str []))
  else
    match text with
    | some (.str s) =>
      if s.length ≤ maxLength then some (some (.str s))
      else some (some (.str (s.take (maxLength - 1) ++ ellipsisStr)))
    | _ => none

/-- Stringification of one subtitle part by `Array.prototype.join`:
`undefined` and `null` become the empty string.  Other non-string shapes
(numbers, nested arrays) have JS coercions no claim exercises, modelled
as `none`. -/
def joinVal : JsVal → Option JSStr
  | none => some []
  | some .null => some []
  | some (.str s) => some s
  | _ => none

/-- The view of one backend result used by `resultToAlfredItem`. -/
structure BackendResult where
  title : JsVal
  url : JsVal
  content : JsVal
deriving Repr

/-- Read the three fields `resultToAlfredItem` uses out of a parsed
backend result value. -/
def backendView (r : Json) : BackendResult :=
  ⟨getField r (str "title"), getField r (str "url"), getField r (str "content")⟩

/-- Embedding of `resultToAlfredItem` from search.js, threading the
favicon counter; `none` models a thrown TypeError (a non-string domain
reaching `sanitizeDomainForFilename` when favicons are enabled, or a
truthy non-string `title`/`content` engaging unexercised coercions). -/
def resultToAlfredItem (env : Env) (r : BackendResult)
    (query searxngUrl secretKey : JSStr) (category timeRange : Option JSStr)
    (count : Nat) : Option (Item × Nat) :=
  let domain := extractDomainVal r.url
  match truncateJs (jsOr r.content (some (.str []))) 80 with
  | none => none
  | some snippet =>
    let filterInfo := formatFilterSubtitle category timeRange
    let parts := [domain] ++
      (if filterInfo.isEmpty then [] else [some (.str filterInfo)]) ++
      (if truthy snippet then [snippet] else [])
    match parts.mapM joinVal with
    | none => none
    | some partStrs =>
      let subtitle := List.intercalate midDotSep partStrs
      let searchUrl := browserSearchUrl searxngUrl query category timeRange
      let fav : Option (JSStr × Nat) :=
        if secretKey.isEmpty then some (str "icon.png", count)
        else
          match domain with
          | some (.str d) =>
            let o := getFaviconPathD env d searxngUrl secretKey count
            some (o.path, o.count)
          | _ => none
      match fav with
      | none => none
      | some (iconPath, count') =>
        match alfredMatcherVal r.title, alfredMatcherVal snippet with
        | some mTitle, some mSnippet =>
          some ({ emptyItem with
                  title := jsOr r.title r.url
                  subtitle := some (.str subtitle)
                  arg := r.url
                  icon := some iconPath
                  quicklookurl := r.url
                  matchStr := some (mTitle ++ [32] ++ mSnippet)
                  text := some ⟨r.url, jsOr r.title r.url⟩
                  mods := some ⟨none,
                    some ⟨none, some (.str altSubtitleStr), some (.str searchUrl)⟩,
                    none, none⟩ }, count')
        | _, _ => none

/-- Exact match of `pat` against a front of `l`. -/
def isFrontOf : JSStr → JSStr → Bool
  | [], _ => true
  | _ :: _, [] => false
  | p :: ps, c :: cs => p == c && isFrontOf ps cs

/-- Embedding of `String.prototype.includes`: does `pat` occur as a
contiguous substring of the second argument? -/
def jsIncludes (pat : JSStr) : JSStr → Bool
  | [] => pat.isEmpty
  | c :: rest => isFrontOf pat (c :: rest) || jsIncludes pat rest

/-! ### The search orchestrator -/

/-- The cache directive of the response envelope. -/
structure CacheDirective where
  seconds : Int
  loosereload : Bool
deriving Repr, DecidableEq

/-- The response envelope returned to Alfred. -/
structure SearchResponse where
  items : List Item
  cache : Option CacheDirective
deriving Repr

/-- The configuration of one invocation (already read, trimmed and
validated by the `getEnv`/`parseTimeout` boundary). -/
structure Config where
  searxngUrl : JSStr
  timeoutMs : Nat
  secretKey : JSStr

/-- Remove the trailing run of slashes (`replace(/\/+$/, "")`). -/
def stripTrailingSlashes (s : JSStr) : JSStr :=
  (s.reverse.dropWhile (· == 47)).reverse

/-- Embedding of `fetchAutocomplete` from search.js: a capped 2-second
timeout, and any transport failure or missing body yields no
suggestions. -/
def fetchAutocomplete (env : Env) (query searxngUrl : JSStr) (timeoutSecs : Nat) :
    List Json :=
  let autocompleteUrl := searxngUrl ++ str "/autocompleter?q=" ++ encodeURIComponent query
  let response := env.httpGetResult autocompleteUrl (min timeoutSecs 2)
  if response.success = false then []
  else
    match response.data with
    | none => []
    | some d => if d.isEmpty then [] else parseAutocompleteResponse (some d)

/-- Classification of `data.results` as the code reads it: a falsy value
or an empty array reaches the no-results branch; a non-empty array is
processed; any other truthy value would make `.map` throw (no claim
exercises one). -/
inductive ResultsView where
  | noResults
  | results (rs : List Json)
  | dynamicError

/-- Compute the `ResultsView` of the `results` field. -/
def resultsView (v : JsVal) : ResultsView :=
  if truthy v = false then .noResults
  else
    match v with
    | some (.arr []) => .noResults
    | some (.arr rs) => .results rs
    | _ => .dynamicError

/-- Map `resultToAlfredItem` over the backend results, threading the
favicon counter; a `none` anywhere aborts the invocation (a thrown
TypeError). -/
def mapResults (env : Env) : List Json → JSStr → JSStr → JSStr →
    Option JSStr → Option JSStr → Nat → Option (List Item × Nat)
  | [], _, _, _, _, _, c => some ([], c)
  | r :: rest, query, searxngUrl, secretKey, category, timeRange, c =>
    match resultToAlfredItem env (backendView r) query searxngUrl secretKey
        category timeRange c with
    | none => none
    | some (item, c') =>
      match mapResults env rest query searxngUrl secretKey category timeRange c' with
      | none => none
      | some (items, c'') => some (item :: items, c'')

/-- Embedding of `search` from search.js: the linear orchestration of
guards, bang parsing, autocomplete, the length threshold, the full
search fetch, response classification and item assembly.  The favicon
counter starts at 0 (it is reset at the start of every search).  `none`
models an exception escaping `search` (possible only in the dynamic
error paths above). -/
def search (cfg : Config) (env : Env) (query : JSStr) : Option SearchResponse :=
  let searxngUrl := stripTrailingSlashes cfg.searxngUrl
  let secretKey := cfg.secretKey
  if searxngUrl.isEmpty then
    some ⟨[errorItem urlNotConfiguredTitle
            (some (.str (str "Set searxng_url in workflow settings"))) none], none⟩
  else if query.isEmpty || (jsTrim query).isEmpty then
    some ⟨[promptItem (str "Type a query to search")], none⟩
  else
    let parsed := parseBangs (jsTrim query)
    let cleanQuery := parsed.query
    if cleanQuery.isEmpty then
      some ⟨[promptItem
              (let f := formatFilterSubtitle parsed.category parsed.timeRange
               if f.isEmpty then str "Type a query to search" else f)], none⟩
    else
      let timeoutSecs := (cfg.timeoutMs + 999) / 1000
      let suggestions := fetchAutocomplete env cleanQuery searxngUrl timeoutSecs
      let suggestionItems :=
        suggestions.map (fun s => suggestionToAlfredItem s parsed.category parsed.timeRange)
      if shouldShowFullResults cleanQuery = false then
        let items :=
          if suggestionItems.isEmpty then
            [fallbackItem cleanQuery searxngUrl parsed.category parsed.timeRange]
          else suggestionItems
        some ⟨items, some ⟨30, true⟩⟩
      else
        let searchUrl := searchFetchUrl searxngUrl cleanQuery parsed.category parsed.timeRange
        let response := env.httpGetResult searchUrl timeoutSecs
        if response.success = false then
          some ⟨[errorItem cannotReachTitle
                  (some (.str (str "Check your connection"))) (some searxngUrl),
                 fallbackItem cleanQuery searxngUrl parsed.category parsed.timeRange], none⟩
        else
          match response.data with
          | none =>
            some ⟨[errorItem emptyResponseTitle
                    (some (.str (str "SearXNG returned no data")))
                    (some (searxngUrl ++ str "/search?q=" ++ encodeURIComponent cleanQuery)),
                   fallbackItem cleanQuery searxngUrl parsed.category parsed.timeRange], none⟩
          | some body =>
            if body.isEmpty || (jsTrim body).isEmpty then
              some ⟨[errorItem emptyResponseTitle
                      (some (.str (str "SearXNG returned no data")))
                      (some (searxngUrl ++ str "/search?q=" ++ encodeURIComponent cleanQuery)),
                     fallbackItem cleanQuery searxngUrl parsed.category parsed.timeRange], none⟩
            else
              match jsonParse body with
              | none =>
                if jsIncludes (str "<!DOCTYPE") body || jsIncludes (str "<html") body then
                  some ⟨[errorItem jsonApiTitle
                          (some (.str (str "Enable json format in SearXNG settings.yml")))
                          (some (str "https://docs.searxng.org/admin/settings/settings_search.html#settings-search")),
                         fallbackItem cleanQuery searxngUrl parsed.category parsed.timeRange], none⟩
                else
                  some ⟨[errorItem invalidResponseTitle
                          (some (.str (str "Check if JSON format is enabled")))
                          (some searxngUrl),
                         fallbackItem cleanQuery searxngUrl parsed.category parsed.timeRange], none⟩
              | some data =>
                if truthy (getField data (str "error")) then
                  some ⟨[errorItem apiErrorTitle (getField data (str "error")) (some searxngUrl),
                         fallbackItem cleanQuery searxngUrl parsed.category parsed.timeRange], none⟩
                else
                  match resultsView (getField data (str "results")) with
                  | .noResults =>
                    let filterInfo := formatFilterSubtitle parsed.category parsed.timeRange
                    let noResultsSubtitle :=
                      if filterInfo.isEmpty then str "Try different keywords"
                      else str "Try different keywords" ++ midDotSep ++ filterInfo
                    if suggestionItems.isEmpty then
                      some ⟨[errorItem noResultsTitle (some (.str noResultsSubtitle))
                              (some (searxngUrl ++ str "/search?q=" ++ encodeURIComponent cleanQuery))],
                            none⟩
                    else
                      some ⟨suggestionItems ++
                             [separatorItem (str "No Results"),
                              errorItem noResultsTitle (some (.str noResultsSubtitle))
                                (some (searxngUrl ++ str "/search?q=" ++ encodeURIComponent cleanQuery))],
                            some ⟨60, true⟩⟩
                  | .results rs =>
                    match mapResults env rs cleanQuery searxngUrl secretKey
                        parsed.category parsed.timeRange 0 with
                    | none => none
                    | some (resultItems, _) =>
                      let items :=
                        (if suggestionItems.isEmpty then []
                         else suggestionItems ++ [separatorItem (str "Results")]) ++
                        resultItems ++
                        [fallbackItem cleanQuery searxngUrl parsed.category parsed.timeRange]
                      some ⟨items, some ⟨60, true⟩⟩
                  | .dynamicError => none

/-! ### Claim theorems about the favicon budget, the html-not-json path
and the title fallback -/

/-- One record of a `getFaviconPath` call: the collaborators it sees and
its arguments (the environment may differ per call, which also covers a
cache populated by an earlier fetch of the same invocation). -/
structure FaviconCall where
  env : Env
  domain : JSStr
  searxngUrl : JSStr
  secretKey : JSStr

/-- Run a sequence of `getFaviconPath` calls from a counter value,
returning the final counter and the number of fetch attempts. -/
def runFaviconCalls : List FaviconCall → Nat → Nat × Nat
  | [], c => (c, 0)
  | call :: rest, c =>
    let o := getFaviconPathD call.env call.domain call.searxngUrl call.secretKey c
    let r := runFaviconCalls rest o.count
    (r.1, (if o.didFetch then 1 else 0) + r.2)

/-- One `getFaviconPath` call increments the counter exactly when it
fetches, and fetches only below the budget. -/
theorem getFaviconPathD_step (env : Env) (d u k : JSStr) (c : Nat) :
    ((getFaviconPathD env d u k c).didFetch = true →
      (getFaviconPathD env d u k c).count = c + 1 ∧ c < MAX_FAVICON_FETCHES_PER_SEARCH) ∧
    ((getFaviconPathD env d u k c).didFetch = false →
      (getFaviconPathD env d u k c).count = c) := by
  unfold getFaviconPathD MAX_FAVICON_FETCHES_PER_SEARCH
  by_cases h1 : k.isEmpty
  · simp [h1]
  · simp only [h1, Bool.false_eq_true, if_false]
    rcases h2 : env.cached d with _ | p
    · simp only []
      by_cases h3 : 10 ≤ c
      · simp [h3]
      · simp only [h3, if_false]
        rcases h4 : env.fetched d with _ | p <;> simp <;> omega
    · simp

/-- Any run of calls attempts at most `budget - start` fetches. -/
theorem runFaviconCalls_bound :
    ∀ (calls : List FaviconCall) (c : Nat),
      (runFaviconCalls calls c).2 ≤ MAX_FAVICON_FETCHES_PER_SEARCH - c := by
  intro calls
  induction calls with
  | nil => intro c; simp [runFaviconCalls]
  | cons hd tl ih =>
    intro c
    have hstep := getFaviconPathD_step hd.env hd.domain hd.searxngUrl hd.secretKey c
    rcases hdf : (getFaviconPathD hd.env hd.domain hd.searxngUrl hd.secretKey c).didFetch
    · have hc := hstep.2 hdf
      have := ih (getFaviconPathD hd.env hd.domain hd.searxngUrl hd.secretKey c).count
      simp only [runFaviconCalls, hdf, if_false, Bool.false_eq_true]
      rw [hc] at this ⊢
      omega
    · obtain ⟨hc, hlt⟩ := hstep.1 hdf
      have := ih (getFaviconPathD hd.env hd.domain hd.searxngUrl hd.secretKey c).count
      simp only [runFaviconCalls, hdf, if_true]
      rw [hc] at this ⊢
      unfold MAX_FAVICON_FETCHES_PER_SEARCH at *
      omega

/-- C8: within one search (the counter starts at 0), no sequence of
`getFaviconPath` calls attempts more than `MAX_FAVICON_FETCHES_PER_SEARCH`
(10) favicon fetches; and once the budget is exhausted a call for an
uncached domain returns the fallback icon, unchanged counter and no
fetch attempt. -/
theorem favicon_budget :
    (∀ calls : List FaviconCall,
      (runFaviconCalls calls 0).2 ≤ MAX_FAVICON_FETCHES_PER_SEARCH) ∧
    (∀ (env : Env) (domain searxngUrl secretKey : JSStr) (count : Nat),
      MAX_FAVICON_FETCHES_PER_SEARCH ≤ count → secretKey.isEmpty = false →
      env.cached domain = none →
      getFaviconPathD env domain searxngUrl secretKey count =
        ⟨str "icon.png", count, false⟩) := by
  constructor
  · intro calls
    have := runFaviconCalls_bound calls 0
    omega
  · intro env domain searxngUrl secretKey count hcnt hkey hcache
    unfold getFaviconPathD
    simp [hkey, hcache, hcnt]

/-- A collaborator record with an empty cache and failing fetches, for
the witness below. -/
def c8env : Env := ⟨fun _ _ => ⟨false, none⟩, fun _ => none, fun _ => none⟩

/-- Witness for C8: the empty call sequence satisfies the bound, and a
concrete exhausted-budget call returns the fallback without fetching. -/
theorem favicon_budget_witness :
    (runFaviconCalls [] 0).2 ≤ MAX_FAVICON_FETCHES_PER_SEARCH ∧
    getFaviconPathD c8env (str "example.com") (str "https://sx.example") (str "k") 10 =
      ⟨str "icon.png", 10, false⟩ :=
  ⟨favicon_budget.1 [],
   favicon_budget.2 c8env (str "example.com") (str "https://sx.example") (str "k") 10
     (by decide) (by decide) rfl⟩

/-- C9: when configuration is present, the cleaned query passes the
length threshold, and the full-search fetch succeeds with a non-blank
body that fails JSON parsing and contains an HTML marker, `search`
returns exactly two items — the json-api error item (pointing at the
settings documentation) followed by the browser fallback item carrying
the cleaned query and the active filters — and no cache directive. -/
theorem search_html_not_json (cfg : Config) (env : Env) (query body : JSStr)
    (h1 : (stripTrailingSlashes cfg.searxngUrl).isEmpty = false)
    (h2 : (query.isEmpty || (jsTrim query).isEmpty) = false)
    (h3 : ((parseBangs (jsTrim query)).query).isEmpty = false)
    (h4 : shouldShowFullResults (parseBangs (jsTrim query)).query = true)
    (h5 : env.httpGetResult
        (searchFetchUrl (stripTrailingSlashes cfg.searxngUrl)
          (parseBangs (jsTrim query)).query (parseBangs (jsTrim query)).category
          (parseBangs (jsTrim query)).timeRange)
        ((cfg.timeoutMs + 999) / 1000) = ⟨true, some body⟩)
    (h6 : (body.isEmpty || (jsTrim body).isEmpty) = false)
    (h7 : jsonParse body = none)
    (h8 : (jsIncludes (str "<!DOCTYPE") body || jsIncludes (str "<html") body) = true) :
    search cfg env query =
      some ⟨[errorItem jsonApiTitle
              (some (.str (str "Enable json format in SearXNG settings.yml")))
              (some (str "https://docs.searxng.org/admin/settings/settings_search.html#settings-search")),
             fallbackItem (parseBangs (jsTrim query)).query
               (stripTrailingSlashes cfg.searxngUrl)
               (parseBangs (jsTrim query)).category
               (parseBangs (jsTrim query)).timeRange], none⟩ := by
  unfold search
  simp only [h1, h2, h3, h4, h5, h6, h7, h8, Bool.false_eq_true, Bool.true_eq_false,
    if_false, if_true, ite_false, ite_true]

/-- Concrete configuration for the C9 witness (note the trailing slash,
stripped by `search`). -/
def c9cfg : Config := ⟨str "https://sx.example/", 5000, []⟩

/-- The JSON-API URL the witness invocation fetches. -/
def c9searchUrl : JSStr :=
  searchFetchUrl (str "https://sx.example") (str "breaking story") none none

/-- Collaborators for the C9 witness: the search fetch returns an HTML
body; everything else fails. -/
def c9env : Env :=
  ⟨fun u _ => if u == c9searchUrl then ⟨true, some (str "<html>")⟩ else ⟨false, none⟩,
   fun _ => none, fun _ => none⟩

/-- Witness for C9 at a fully concrete invocation. -/
theorem search_html_not_json_witness :
    search c9cfg c9env (str "breaking story") =
      some ⟨[errorItem jsonApiTitle
              (some (.str (str "Enable json format in SearXNG settings.yml")))
              (some (str "https://docs.searxng.org/admin/settings/settings_search.html#settings-search")),
             fallbackItem (parseBangs (jsTrim (str "breaking story"))).query
               (stripTrailingSlashes c9cfg.searxngUrl)
               (parseBangs (jsTrim (str "breaking story"))).category
               (parseBangs (jsTrim (str "breaking story"))).timeRange], none⟩ :=
  search_html_not_json c9cfg c9env (str "breaking story") (str "<html>")
    rfl rfl rfl rfl rfl rfl rfl rfl

/-- C10: a backend result whose `title` is absent, null or the empty
string, and whose `url` is a string, produces (whenever an item is
produced at all) a display item using the URL as its title and as its
large-type text — so the title is never the empty string when the URL is
non-empty. -/
theorem resultToAlfredItem_title_fallback (env : Env) (r : BackendResult)
    (query searxngUrl secretKey : JSStr) (category timeRange : Option JSStr)
    (count : Nat) (u : JSStr) (item : Item) (count' : Nat)
    (hurl : r.url = some (.str u))
    (htitle : r.title = none ∨ r.title = some Json.null ∨ r.title = some (.str []))
    (hres : resultToAlfredItem env r query searxngUrl secretKey category timeRange count
        = some (item, count')) :
    item.title = some (.str u) ∧
    item.text = some ⟨some (.str u), some (.str u)⟩ ∧
    (u ≠ [] → item.title ≠ some (.str [])) := by
  have hor : ∀ b : JsVal, jsOr r.title b = b := by
    rcases htitle with h | h | h <;> intro b <;> simp [jsOr, truthy, h, List.isEmpty]
  unfold resultToAlfredItem at hres
  repeat' ((try dsimp only at hres); split at hres)
  all_goals try exact Option.noConfusion hres
  all_goals (
    have hpair := Option.some.inj hres
    have hitem := congrArg Prod.fst hpair
    simp only at hitem
    subst hitem
    refine ⟨by simp [hor, hurl], by simp [hor, hurl], ?_⟩
    intro hu
    simp only [hor, hurl, ne_eq, Option.some.injEq, Json.str.injEq]
    exact hu)

/-- Collaborators for the C10 witness (favicons disabled by the empty
secret key, so none of them is consulted). -/
def c10env : Env := ⟨fun _ _ => ⟨false, none⟩, fun _ => none, fun _ => none⟩

/-- A backend result with no title and a URL, for the C10 witness. -/
def c10result : BackendResult := ⟨none, some (.str (str "https://example.com/a")), none⟩

/-- The item the C10 witness invocation produces. -/
def c10pair : Item × Nat :=
  (resultToAlfredItem c10env c10result (str "q") (str "https://sx.example") [] none none 0).getD
    (emptyItem, 0)

/-- Witness for C10 at a fully concrete result. -/
theorem resultToAlfredItem_title_fallback_witness :
    c10pair.1.title = some (.str (str "https://example.com/a")) ∧
    c10pair.1.text = some ⟨some (.str (str "https://example.com/a")),
                           some (.str (str "https://example.com/a"))⟩ :=
  have h := resultToAlfredItem_title_fallback c10env c10result (str "q")
    (str "https://sx.example") [] none none 0 (str "https://example.com/a")
    c10pair.1 c10pair.2 rfl (Or.inl rfl) rfl
  ⟨h.1, h.2.1⟩

/-! ### Spec-modelled components

Three functions of the repository are exercised only through their unit
tests in the source tree — the `scriptFilter` top-level guard, the
`buildResponse` envelope builder and the `normalizeHmacOutput` digest
normaliser are absent from src/scripts/search.js itself.  They are
modelled here from the specification text. -/

/-- Scan for the last position of `pat`, carrying the best index found. -/
def lastIdxGo (pat : JSStr) : JSStr → Nat → Option Nat → Option Nat
  | [], i, best => if isFrontOf pat [] then some i else best
  | c :: rest, i, best =>
    lastIdxGo pat rest (i + 1) (if isFrontOf pat (c :: rest) then some i else best)

/-- Embedding of `String.prototype.lastIndexOf` (position of the last
occurrence, `none` when absent). -/
def jsLastIndexOf (s pat : JSStr) : Option Nat := lastIdxGo pat s 0 none

/-- Modelled from the spec: `normalizeHmacOutput` is missing from
src/scripts/search.js (only its unit test is present); per the spec the
HMAC tool output may carry a label such as `SHA2-256(stdin)= ` before the
hex digest, and the normaliser strips everything up through the last
`= `, trims surrounding whitespace, and treats null, undefined or blank
input as empty. -/
def normalizeHmacOutput (output : Option JSStr) : JSStr :=
  match output with
  | none => []
  | some s =>
    match jsLastIndexOf s (str "= ") with
    | some i => jsTrim (s.drop (i + 2))
    | none => jsTrim s

/-- A pattern absent from a string is a front of none of its suffixes. -/
theorem isFrontOf_drop_eq_false_of_jsIncludes_false (pat : JSStr) :
    ∀ (l : JSStr), jsIncludes pat l = false →
      ∀ j, isFrontOf pat (l.drop j) = false := by
  intro l
  induction l with
  | nil =>
    intro h j
    simp only [List.drop_nil]
    cases pat with
    | nil => simp [jsIncludes] at h
    | cons p ps => rfl
  | cons c rest ih =>
    intro h j
    have h2 : (isFrontOf pat (c :: rest) || jsIncludes pat rest) = false := h
    rw [Bool.or_eq_false_iff] at h2
    cases j with
    | zero => exact h2.1
    | succ j2 => exact ih h2.2 j2

/-- A scan over a pattern-free string keeps the carried best index. -/
theorem lastIdxGo_eq_of_no_front (pat : JSStr) :
    ∀ (l : JSStr) (i : Nat) (best : Option Nat),
      (∀ j, isFrontOf pat (l.drop j) = false) →
      lastIdxGo pat l i best = best := by
  intro l
  induction l with
  | nil =>
    intro i best h
    have h0 := h 0
    simp only [List.drop_nil] at h0
    simp [lastIdxGo, h0]
  | cons c rest ih =>
    intro i best h
    have h0 := h 0
    simp only [List.drop_zero] at h0
    simp only [lastIdxGo, h0, if_false, Bool.false_eq_true]
    exact ih (i + 1) best (fun j => h (j + 1))

/-- Scanning `pat ++ d` with no occurrence of `pat` in `d` settles on the
current position. -/
theorem lastIdxGo_append_self (d : JSStr)
    (hd : ∀ j, isFrontOf ([61, 32] : JSStr) (d.drop j) = false) :
    ∀ (i : Nat) (best : Option Nat),
      lastIdxGo [61, 32] (61 :: 32 :: d) i best = some i := by
  intro i best
  have hfront : isFrontOf [61, 32] (61 :: 32 :: d) = true := by
    simp [isFrontOf]
  simp only [lastIdxGo, hfront, if_true]
  have hfront2 : isFrontOf [61, 32] (32 :: d) = false := by
    simp [isFrontOf]
  simp only [hfront2, if_false, Bool.false_eq_true]
  exact lastIdxGo_eq_of_no_front [61, 32] d (i + 2) (some i) hd

/-- Scanning `p ++ "= " ++ d` with no occurrence in `d` ends at the
label separator, whatever came before. -/
theorem lastIdxGo_label (d : JSStr)
    (hd : ∀ j, isFrontOf ([61, 32] : JSStr) (d.drop j) = false) :
    ∀ (p : JSStr) (i : Nat) (best : Option Nat),
      lastIdxGo [61, 32] (p ++ 61 :: 32 :: d) i best = some (i + p.length) := by
  intro p
  induction p with
  | nil =>
    intro i best
    simpa using lastIdxGo_append_self d hd i best
  | cons c p2 ih =>
    intro i best
    simp only [List.cons_append, lastIdxGo, List.append_eq]
    rw [ih (i + 1)]
    simp only [List.length_cons]
    congr 1
    omega

/-- C7 (spec-modelled): the HMAC output normalisation yields the empty
string on null, undefined, empty or whitespace-only input; it strips any
label prefix up through the last `= ` together with surrounding
whitespace, leaving exactly the digest; and an unlabelled output is
simply trimmed. -/
theorem normalizeHmacOutput_spec :
    normalizeHmacOutput none = [] ∧
    normalizeHmacOutput (some []) = [] ∧
    (∀ s : JSStr, (∀ c ∈ s, isJsSpace c = true) → normalizeHmacOutput (some s) = []) ∧
    (∀ p d : JSStr, jsIncludes (str "= ") d = false →
      normalizeHmacOutput (some (p ++ str "= " ++ d)) = jsTrim d) ∧
    (∀ s : JSStr, jsIncludes (str "= ") s = false →
      normalizeHmacOutput (some s) = jsTrim s) := by
  have heq : (str "= ") = [61, 32] := rfl
  refine ⟨rfl, rfl, ?_, ?_, ?_⟩
  · intro s hs
    have hinc : jsIncludes (str "= ") s = false := by
      rw [heq]
      induction s with
      | nil => rfl
      | cons c rest ih =>
        have hc : isJsSpace c = true := hs c (by simp)
        have hne : c ≠ 61 := by
          intro hcontra
          rw [hcontra] at hc
          simp [isJsSpace] at hc
        have h61 : ((61 : Nat) == c) = false :=
          beq_eq_false_iff_ne.mpr (fun h => hne h.symm)
        have hfront : isFrontOf [61, 32] (c :: rest) = false := by
          simp [isFrontOf, h61]
        simp only [jsIncludes, hfront, Bool.false_or]
        exact ih (fun x hx => hs x (by simp [hx]))
    have hnone : jsLastIndexOf s (str "= ") = none := by
      rw [heq] at hinc ⊢
      exact lastIdxGo_eq_of_no_front [61, 32] s 0 none
        (isFrontOf_drop_eq_false_of_jsIncludes_false [61, 32] s hinc)
    have htrim : jsTrim s = [] := by
      unfold jsTrim
      rw [List.dropWhile_eq_nil_iff.mpr (fun x hx => hs x hx)]
      rfl
    simp [normalizeHmacOutput, hnone, htrim]
  · intro p d hd
    have hdrop := isFrontOf_drop_eq_false_of_jsIncludes_false [61, 32] d (heq ▸ hd)
    have hidx : jsLastIndexOf (p ++ (str "= " ++ d)) (str "= ") = some p.length := by
      rw [heq]
      have h1 : p ++ (([61, 32] : JSStr) ++ d) = p ++ 61 :: 32 :: d := by simp
      rw [h1]
      simpa using lastIdxGo_label d hdrop p 0 none
    have hdropped : (p ++ (str "= " ++ d)).drop (p.length + 2) = d := by
      rw [heq]
      have h2 : (p ++ ([61, 32] ++ d)).drop (p.length + 2) = ([61, 32] ++ d).drop 2 := by
        rw [List.drop_append_eq_append_drop]
        simp
      simp [h2]
    simp [normalizeHmacOutput, hidx, hdropped]
  · intro s hs
    have hnone : jsLastIndexOf s (str "= ") = none := by
      rw [heq] at hs ⊢
      exact lastIdxGo_eq_of_no_front [61, 32] s 0 none
        (isFrontOf_drop_eq_false_of_jsIncludes_false [61, 32] s hs)
    simp [normalizeHmacOutput, hnone]

/-- Witness for C7: the prefixed OpenSSL output reduces to the bare
digest. -/
theorem normalizeHmacOutput_spec_witness :
    normalizeHmacOutput (some (str "SHA2-256(stdin)" ++ str "= " ++ str "6afe25")) =
      str "6afe25" :=
  (normalizeHmacOutput_spec.2.2.2.1 (str "SHA2-256(stdin)") (str "6afe25")
    (by decide)).trans (by decide)

/-- Configuration toggle of the envelope builder (`enableResultCache`). -/
structure BuildConfig where
  enableResultCache : Bool

/-- Modelled from the spec: `buildResponse` is missing from
src/scripts/search.js (only its unit test is present); per the spec the
envelope carries the items, plus a cache object with `loosereload: true`
exactly when result caching is enabled by configuration and the cache
duration is a positive number of seconds; an absent (or null), zero or
negative duration, or caching disabled, omits the cache object
entirely. -/
def buildResponse (cfg : BuildConfig) (items : List Item) (cacheSeconds : Option Int) :
    SearchResponse :=
  match cacheSeconds with
  | some s =>
    if cfg.enableResultCache = true ∧ 0 < s then ⟨items, some ⟨s, true⟩⟩
    else ⟨items, none⟩
  | none => ⟨items, none⟩

/-- C6 (spec-modelled): the envelope includes a cache object (with
`loosereload: true` and the given duration) exactly when caching is
enabled and the duration is positive; otherwise the cache field is
omitted; the items pass through unchanged. -/
theorem buildResponse_cache_iff (cfg : BuildConfig) (items : List Item)
    (cacheSeconds : Option Int) :
    ((buildResponse cfg items cacheSeconds).cache ≠ none ↔
      (cfg.enableResultCache = true ∧ ∃ s, cacheSeconds = some s ∧ 0 < s)) ∧
    (buildResponse cfg items cacheSeconds).items = items ∧
    (∀ s : Int, cacheSeconds = some s → 0 < s → cfg.enableResultCache = true →
      (buildResponse cfg items cacheSeconds).cache = some ⟨s, true⟩) := by
  refine ⟨?_, ?_, ?_⟩
  · cases cacheSeconds with
    | none => simp [buildResponse]
    | some s =>
      by_cases h : cfg.enableResultCache = true ∧ 0 < s
      · simp only [buildResponse, if_pos h]
        simp only [ne_eq, Option.some_ne_none, not_false_eq_true, true_iff]
        exact ⟨h.1, s, rfl, h.2⟩
      · simp only [buildResponse, if_neg h]
        simp only [ne_eq, not_true_eq_false, false_iff, not_and]
        intro henb
        rintro ⟨s2, hs2, hpos⟩
        obtain rfl := Option.some.inj hs2
        exact h ⟨henb, hpos⟩
  · cases cacheSeconds with
    | none => rfl
    | some s =>
      by_cases h : cfg.enableResultCache = true ∧ 0 < s <;>
        simp [buildResponse, h]
  · intro s hs hpos henb
    subst hs
    simp [buildResponse, henb, hpos]

/-- Witness for C6: sixty seconds with caching enabled yields the
loose-reload cache object. -/
theorem buildResponse_cache_iff_witness :
    (buildResponse ⟨true⟩ [] (some 60)).cache = some ⟨60, true⟩ :=
  (buildResponse_cache_iff ⟨true⟩ [] (some 60)).2.2 60 rfl (by decide) rfl

/-- A thrown JavaScript value, as classified by the spec: an Error
object (with an optional message), a string, null, or an arbitrary
object. -/
inductive JsThrown where
  | errorObj (message : Option JSStr)
  | strVal (s : JSStr)
  | nullVal
  | objVal (fields : List (JSStr × Json))

/-- Diagnostic text carried by the generic error item for each kind of
thrown value (an Error or a string shows its text, anything else a
generic line). -/
def thrownMessage : JsThrown → JSStr
  | .errorObj (some m) => m
  | .errorObj none => str "Unknown error"
  | .strVal s => s
  | .nullVal => str "null"
  | .objVal _ => str "Unknown error"

/-- Modelled from the spec: the generic `Internal Error` item the
top-level guard produces from a thrown value — informative (the
diagnostic text, also in a copy/large-type-friendly field) but
non-actionable. -/
def internalErrorItem (t : JsThrown) : Item :=
  { emptyItem with
    title := some (.str (str "Internal Error"))
    subtitle := some (.str (thrownMessage t))
    valid := some false
    text := some ⟨some (.str (thrownMessage t)), some (.str (thrownMessage t))⟩ }

/-- Modelled from the spec: the top-level guard wrapping the entire
orchestration (`scriptFilter`, missing from src/scripts/search.js — only
its unit test is present): a normal return passes through, and any
thrown value becomes a response with a single generic `Internal Error`
item instead of aborting the invocation. -/
def scriptFilter (handler : List JSStr → Except JsThrown SearchResponse)
    (argv : List JSStr) : SearchResponse :=
  match handler argv with
  | .ok r => r
  | .error t => ⟨[internalErrorItem t], none⟩

/-- C1 (spec-modelled): whatever value the orchestration throws — an
Error object, a string, null, or an arbitrary object — the guarded
invocation still returns a response whose items are the generic
`Internal Error` item; being a total function, it cannot abort. -/
theorem scriptFilter_internal_error
    (handler : List JSStr → Except JsThrown SearchResponse) (argv : List JSStr)
    (t : JsThrown) (h : handler argv = .error t) :
    (scriptFilter handler argv).items = [internalErrorItem t] ∧
    (internalErrorItem t).title = some (.str (str "Internal Error")) := by
  constructor
  · simp [scriptFilter, h]
  · rfl

/-- An orchestration that throws a string, for the C1 witness. -/
def c1handler : List JSStr → Except JsThrown SearchResponse :=
  fun _ => .error (.strVal (str "boom"))

/-- Witness for C1 at a concrete thrown string. -/
theorem scriptFilter_internal_error_witness :
    (scriptFilter c1handler []).items = [internalErrorItem (.strVal (str "boom"))] ∧
    (internalErrorItem (.strVal (str "boom"))).title = some (.str (str "Internal Error")) :=
  scriptFilter_internal_error c1handler [] (.strVal (str "boom")) rfl
